import Mathlib

/-!
Verification development for the NN_FPGA simulated-accelerator engine.

The repository's observable surface consists of demo scripts that call a
simulated FPGA accelerator engine (unit-bound compute model, block-partitioned
matrix cache, quantization layer).  The engine's implementation is not part of
the repository's source tree; its contract is fixed by the specification and
exercised by the demo call patterns.  The definitions below are therefore a
shallow embedding modelled from the specification, with float32 buffers
embedded as exact rationals (the embedding is exact, so rounding-tolerance
statements hold with zero error).
-/

namespace NNFPGA

/-- Modelled from the spec: the error taxonomy of §7 plus the `ShapeMismatch`
failure named by §4.1 for mismatched operand lengths in unit operations. -/
inductive AccelError where
  | InvalidShape
  | InvalidUnitId
  | NotBound
  | UnboundUnit
  | ShapeMismatch
  | UnsupportedConversion
  | IOFailure
  deriving DecidableEq

/-- Modelled from the spec: a buffer is an ordered sequence of float32 values,
embedded as exact rationals. -/
abbrev Buffer := List ℚ

/-- Modelled from the spec: a Vector is a Buffer plus an optional binding to at
most one compute-unit id; unbound is a valid, inert state. -/
structure Vector where
  buffer : Buffer
  binding : Option Int
  deriving DecidableEq

/-- Modelled from the spec: constructing a Vector from raw numeric data
validates that the length is k·16 with k ≥ 1 at construction time and fails
with `InvalidShape` otherwise; the data is stored exactly, never padded or
truncated. -/
def Vector.fromList (data : Buffer) : Except AccelError Vector :=
  if data.length % 16 = 0 ∧ data.length ≠ 0 then
    .ok ⟨data, none⟩
  else
    .error .InvalidShape

/-- Modelled from the spec: the engine's element-wise hyperbolic tangent.  The
embedding is exact over ℚ, so the transcendental is modelled as a fixed
computable rational elementwise function; the engine and the reference
implementation apply this same function, which is what the float tolerance
statement reduces to in an exact embedding. -/
def tanhQ (x : ℚ) : ℚ :=
  x * (27 + x ^ 2) / (27 + 9 * x ^ 2)

/-- Modelled from the spec: the operations accepted by the direct (non-unit)
vector path `computeVector`. -/
inductive VecOp where
  | add
  | mul
  | tanh
  | relu
  deriving DecidableEq

/-- Modelled from the spec: the engine's element-wise implementation of each
direct vector operation (`add` adds the scalar 1, `mul` scales by 2,
`relu`/`tanh` element-wise). -/
def applyVecOp : VecOp → Buffer → Buffer
  | .add, v => v.map (fun x => x + 1)
  | .mul, v => v.map (fun x => x * 2)
  | .tanh, v => v.map (fun x => tanhQ x)
  | .relu, v => v.map (fun x => max x 0)

/-- Reference element-wise transform per operation, mirroring the NumPy
reference computations used by the demo scripts. -/
def vecOpRef : VecOp → ℚ → ℚ
  | .add => fun x => x + 1
  | .mul => fun x => x * 2
  | .tanh => fun x => tanhQ x
  | .relu => fun x => max x 0

/-- Reference implementation of a direct vector operation: element-wise map of
the reference transform. -/
def refCompute (op : VecOp) (v : Buffer) : Buffer :=
  v.map (vecOpRef op)

/-- Modelled from the spec: `computeVector` operates on an arbitrary-length
(multiple-of-16, nonempty) buffer without requiring a unit binding, returning a
new buffer; invalid lengths fail with `InvalidShape`. -/
def computeVector (v : Buffer) (op : VecOp) : Except AccelError Buffer :=
  if v.length % 16 = 0 ∧ v.length ≠ 0 then
    .ok (applyVecOp op v)
  else
    .error .InvalidShape

/-- Modelled from the spec: a Matrix is a rows×cols float32 array, embedded as
a row-major list of rows of rationals. -/
structure Matrix where
  rows : Nat
  cols : Nat
  data : List (List ℚ)

/-- Entry access for a matrix: row `r`, column `c`, defaulting to 0 outside
the stored data. -/
def Matrix.entry (M : Matrix) (r c : Nat) : ℚ :=
  (M.data.getD r []).getD c 0

/-- Modelled from the spec: the zero-pad partial-block policy of §4.2 —
out-of-range lanes of an edge block are treated as zero. -/
def Matrix.padded (M : Matrix) (r c : Nat) : ℚ :=
  if r < M.rows ∧ c < M.cols then M.entry r c else 0

/-- Number of 16-wide blocks covering a dimension of size `n`: ⌈n/16⌉. -/
def blockCount (n : Nat) : Nat :=
  (n + 15) / 16

/-- Modelled from the spec: a PreparedMatrix retains the dimensions and the
16×16 block partition of the matrix, stored in row-major block order. -/
structure Prepared where
  rows : Nat
  cols : Nat
  blocks : List (List (List (List ℚ)))

/-- Modelled from the spec: `prepare` partitions the matrix into
⌈rows/16⌉ × ⌈cols/16⌉ blocks of 16×16 entries each (edge blocks zero-padded),
stored in row-major block order, copying the matrix content. -/
def prepare (M : Matrix) : Prepared :=
  { rows := M.rows
    cols := M.cols
    blocks :=
      (List.range (blockCount M.rows)).map fun bi =>
        (List.range (blockCount M.cols)).map fun bj =>
          (List.range 16).map fun i =>
            (List.range 16).map fun j =>
              M.padded (bi * 16 + i) (bj * 16 + j) }

/-- Dot product of a 16-lane block row against a 16-lane vector chunk. -/
def dot16 (row chunk : List ℚ) : ℚ :=
  ∑ j ∈ Finset.range 16, row.getD j 0 * chunk.getD j 0

/-- The 16-lane chunk of the input vector feeding column block `bj`
(zero-padded past the end of the vector). -/
def chunkOf (x : Buffer) (bj : Nat) : List ℚ :=
  (List.range 16).map fun j => x.getD (bj * 16 + j) 0

/-- Modelled from the spec: the block-partitioned product — iterate over block
rows, accumulate dot products per block and per column block, combine the
partial sums into 16-lane outputs, concatenate, and truncate to `rows`
(out-of-range lanes are never written back). -/
def Prepared.out (p : Prepared) (x : Buffer) : Buffer :=
  (((List.range (blockCount p.rows)).map fun bi =>
      (List.range 16).map fun i =>
        ∑ bj ∈ Finset.range (blockCount p.cols),
          dot16 (((p.blocks.getD bi []).getD bj []).getD i []) (chunkOf x bj)).flatten).take
    p.rows

/-- Modelled from the spec: `computeWithPrepared` requires the vector length to
equal the matrix column count and computes the block-partitioned product. -/
def computeWithPrepared (p : Prepared) (x : Buffer) : Except AccelError Buffer :=
  if x.length = p.cols then .ok (p.out x) else .error .ShapeMismatch

/-- Direct dense matrix-vector product, the reference the block-partitioned
path is compared against. -/
def denseMatVec (M : Matrix) (x : Buffer) : Buffer :=
  (List.range M.rows).map fun r => ∑ c ∈ Finset.range M.cols, M.entry r c * x.getD c 0

/-- Modelled from the spec: the Accelerator owns a pool of 256 compute units
(idle/empty at startup, `none`; populated with a copied buffer, `some`) and at
most one retained prepared matrix for the matrix path of the instance API used
by the demos (`prepare_matrix` / `compute_with_prepared_matrix`). -/
structure Accelerator where
  units : Int → Option Buffer
  preparedMat : Option Prepared

/-- Modelled from the spec: a freshly constructed Accelerator has every unit
idle and no prepared matrix. -/
def Accelerator.start : Accelerator :=
  { units := fun _ => none, preparedMat := none }

/-- Functional update of the unit pool at one unit id. -/
def updateUnit (f : Int → Option Buffer) (k : Int) (b : Option Buffer) :
    Int → Option Buffer :=
  fun j => if j = k then b else f j

/-- Modelled from the spec: `bindToUnit` requires `0 ≤ unitId < 256`, copies
the vector's buffer into that unit's storage, and records the binding on the
vector; out-of-range ids fail with `InvalidUnitId` before any state change. -/
def Accelerator.bindToUnit (a : Accelerator) (v : Vector) (unitId : Int) :
    Except AccelError (Accelerator × Vector) :=
  if 0 ≤ unitId ∧ unitId < 256 then
    .ok ({ a with units := updateUnit a.units unitId (some v.buffer) },
         { v with binding := some unitId })
  else
    .error .InvalidUnitId

/-- Modelled from the spec: the operations accepted by unit-to-unit
`execute`. -/
inductive UnitOp where
  | copy
  | add
  | relu
  | tanh
  deriving DecidableEq

/-- Modelled from the spec: `execute(op, sourceUnit, targetUnit)` validates
both unit ids (else `InvalidUnitId`), requires both units populated (else
`UnboundUnit`), then applies the operation.  `copy` and `add` require equal
stored lengths (else `ShapeMismatch`).  For the `relu`/`tanh` ambiguity of §9
this model fixes the documented rule: the target receives the activation of
the source's storage.  All validation precedes the single state write. -/
def Accelerator.execute (a : Accelerator) (op : UnitOp) (src tgt : Int) :
    Except AccelError Accelerator :=
  if 0 ≤ src ∧ src < 256 ∧ 0 ≤ tgt ∧ tgt < 256 then
    match a.units src, a.units tgt with
    | none, _ => .error .UnboundUnit
    | some _, none => .error .UnboundUnit
    | some s, some t =>
      match op with
      | .copy =>
        if s.length = t.length then
          .ok { a with units := updateUnit a.units tgt (some s) }
        else
          .error .ShapeMismatch
      | .add =>
        if s.length = t.length then
          .ok { a with units := updateUnit a.units tgt (some (List.zipWith (· + ·) t s)) }
        else
          .error .ShapeMismatch
      | .relu =>
        .ok { a with units := updateUnit a.units tgt (some (s.map fun x => max x 0)) }
      | .tanh =>
        .ok { a with units := updateUnit a.units tgt (some (s.map fun x => tanhQ x)) }
  else
    .error .InvalidUnitId

/-- Modelled from the spec: a bound-requiring vector operation (the demos'
`vec.add_from_unit(src)`): a Vector that is not bound fails with `NotBound`;
otherwise the accumulation runs on the vector's unit and the result is copied
back out into the vector. -/
def Accelerator.addFromUnit (a : Accelerator) (v : Vector) (src : Int) :
    Except AccelError (Accelerator × Vector) :=
  match v.binding with
  | none => .error .NotBound
  | some u =>
    match a.execute .add src u with
    | .error e => .error e
    | .ok a2 => .ok (a2, { v with buffer := (a2.units u).getD [] })

/-- Modelled from the spec: a bound-requiring in-place activation (the demos'
`vec.relu()` / `vec.tanh()`): fails with `NotBound` on an unbound vector,
otherwise applies the activation on the vector's own unit. -/
def Accelerator.activate (a : Accelerator) (v : Vector) (op : UnitOp) :
    Except AccelError (Accelerator × Vector) :=
  match v.binding with
  | none => .error .NotBound
  | some u =>
    match a.execute op u u with
    | .error e => .error e
    | .ok a2 => .ok (a2, { v with buffer := (a2.units u).getD [] })

/-- Modelled from the spec: the instance-level matrix path retains the single
most recent preparation, replacing any previous one. -/
def Accelerator.prepareMatrix (a : Accelerator) (M : Matrix) : Accelerator :=
  { a with preparedMat := some (prepare M) }

/-- Modelled from the spec: `compute_with_prepared_matrix` takes only the
vector and computes against the instance's retained preparation; with no
retained preparation it fails with the runtime-state error `NotBound`. -/
def Accelerator.computeWithPreparedMatrix (a : Accelerator) (x : Buffer) :
    Except AccelError Buffer :=
  match a.preparedMat with
  | none => .error .NotBound
  | some p => computeWithPrepared p x

/-- Modelled from the spec: the fixed symmetric ternary threshold (a design
constant; the spec fixes only that it is a positive constant with values of
magnitude below it mapping to 0, others to their sign). -/
def trinThreshold : ℚ := 1 / 2

/-- Modelled from the spec: ternary quantization of one element — 0 for
magnitude below the threshold, otherwise the sign. -/
def trinarize (x : ℚ) : ℚ :=
  if |x| < trinThreshold then 0 else if 0 < x then 1 else -1

/-- Modelled from the spec: saturating clamp to the representable 1s.31 range
[-2^31, 2^31 - 1]; saturates, never wraps. -/
def fixClamp (n : ℤ) : ℤ :=
  max (-(2 ^ 31)) (min (2 ^ 31 - 1) n)

/-- Modelled from the spec: 1s.31 fixed-point conversion of one element —
scale by 2^31, round to nearest integer, clamp to the representable range. -/
def toFixed1s31 (x : ℚ) : ℤ :=
  fixClamp (round (x * 2 ^ 31))

/-- De-scaling read-back of 1s.31 values: divide by 2^31. -/
def deScale (v : Buffer) : Buffer :=
  v.map fun x => x / 2 ^ 31

/-- Largest de-scaled value representable in 1s.31: 1 - 2^-31. -/
def maxFix : ℚ := 1 - 1 / 2 ^ 31

/-- Modelled from the spec: `convert` maps the duck-typed kind string to one of
the closed set of conversions (`full` identity copy, `trinary` ternary
quantization, `fixed_point_1s31` scaled/rounded/saturated integers held in the
same storage type) and rejects unknown kinds with `UnsupportedConversion`;
elements are converted independently. -/
def convert (v : Buffer) (kind : String) : Except AccelError Buffer :=
  if kind = "full" then .ok v
  else if kind = "trinary" then .ok (v.map trinarize)
  else if kind = "fixed_point_1s31" then .ok (v.map fun x => ((toFixed1s31 x : ℤ) : ℚ))
  else .error .UnsupportedConversion

/-- Modelled from the spec: one engine call, for stating failure atomicity
uniformly over the engine surface. -/
inductive Command where
  | bindCmd (v : Vector) (u : Int)
  | execCmd (op : UnitOp) (src tgt : Int)
  | prepCmd (M : Matrix)
  | computePreparedCmd (x : Buffer)
  | computeVectorCmd (x : Buffer) (op : VecOp)
  | convertCmd (x : Buffer) (kind : String)

/-- Modelled from the spec: big-step execution of one engine call against the
accelerator state, returning the post-state and the error, if any.  Every
operation validates before its single state write, so a failing call leaves
the state it was given. -/
def Accelerator.run (a : Accelerator) : Command → Accelerator × Option AccelError
  | .bindCmd v u =>
    match a.bindToUnit v u with
    | .ok (a2, _) => (a2, none)
    | .error e => (a, some e)
  | .execCmd op s t =>
    match a.execute op s t with
    | .ok a2 => (a2, none)
    | .error e => (a, some e)
  | .prepCmd M => (a.prepareMatrix M, none)
  | .computePreparedCmd x =>
    match a.computeWithPreparedMatrix x with
    | .ok _ => (a, none)
    | .error e => (a, some e)
  | .computeVectorCmd x op =>
    match computeVector x op with
    | .ok _ => (a, none)
    | .error e => (a, some e)
  | .convertCmd x k =>
    match convert x k with
    | .ok _ => (a, none)
    | .error e => (a, some e)

theorem getD_range_map {α : Type _} (f : ℕ → α) (n k : ℕ) (d : α) :
    ((List.range n).map f).getD k d = if k < n then f k else d := by
  by_cases h : k < n
  · rw [List.getD_eq_getElem _ _ (by simpa using h), List.getElem_map, List.getElem_range,
      if_pos h]
  · rw [if_neg h, List.getD_eq_default]
    simpa using Nat.le_of_not_lt h

theorem flatten_range_map {α : Type _} (f : ℕ → ℕ → α) (B : ℕ) :
    ((List.range B).map fun bi => (List.range 16).map (f bi)).flatten
      = (List.range (B * 16)).map fun k => f (k / 16) (k % 16) := by
  induction B with
  | zero => simp
  | succ B ih =>
    rw [List.range_succ B, List.map_append, List.flatten_append, ih,
      show (B + 1) * 16 = B * 16 + 16 from by ring, List.range_add, List.map_append,
      List.map_map]
    congr 1
    simp
    intro a ha
    have h1 : (B * 16 + a) / 16 = B := by omega
    have h2 : (B * 16 + a) % 16 = a := by omega
    rw [h1, h2]

theorem sum_range_blocks (g : ℕ → ℚ) (B : ℕ) :
    ∑ bj ∈ Finset.range B, ∑ j ∈ Finset.range 16, g (bj * 16 + j)
      = ∑ c ∈ Finset.range (B * 16), g c := by
  induction B with
  | zero => simp
  | succ B ih =>
    rw [Finset.sum_range_succ, ih]
    have h1 : ∑ c ∈ Finset.range (B * 16), g c + ∑ c ∈ Finset.Ico (B * 16) (B * 16 + 16), g c
        = ∑ c ∈ Finset.range (B * 16 + 16), g c := by
      simp only [Finset.range_eq_Ico]
      exact Finset.sum_Ico_consecutive g (Nat.zero_le _) (Nat.le_add_right _ _)
    have h2 : ∑ c ∈ Finset.Ico (B * 16) (B * 16 + 16), g c
        = ∑ j ∈ Finset.range 16, g (B * 16 + j) := by
      rw [Finset.sum_Ico_eq_sum_range]
      simp
    rw [show (B + 1) * 16 = B * 16 + 16 from by ring, ← h1, h2]

theorem cols_le_blocks (n : ℕ) : n ≤ blockCount n * 16 := by
  unfold blockCount
  omega

theorem out_prepare_eq_dense (M : Matrix) (x : Buffer) :
    (prepare M).out x = denseMatVec M x := by
  unfold Prepared.out prepare denseMatVec
  simp only
  rw [flatten_range_map
    (fun bi i => ∑ bj ∈ Finset.range (blockCount M.cols),
      dot16 (((((List.range (blockCount M.rows)).map fun bi2 =>
          (List.range (blockCount M.cols)).map fun bj2 =>
            (List.range 16).map fun i2 =>
              (List.range 16).map fun j => M.padded (bi2 * 16 + i2) (bj2 * 16 + j)).getD bi
            []).getD bj []).getD i [])
        (chunkOf x bj))]
  rw [← List.map_take, List.take_range, Nat.min_eq_left (cols_le_blocks M.rows)]
  refine List.map_congr_left fun r hr => ?_
  have hrlt : r < M.rows := List.mem_range.mp hr
  have hbi : r / 16 < blockCount M.rows := by
    unfold blockCount
    omega
  have hi16 : r % 16 < 16 := by omega
  rw [getD_range_map, if_pos hbi]
  have step1 :
      ∑ bj ∈ Finset.range (blockCount M.cols),
        dot16 ((((List.range (blockCount M.cols)).map fun bj2 =>
            (List.range 16).map fun i2 =>
              (List.range 16).map fun j =>
                M.padded (r / 16 * 16 + i2) (bj2 * 16 + j)).getD bj []).getD (r % 16) [])
          (chunkOf x bj)
        = ∑ bj ∈ Finset.range (blockCount M.cols), ∑ j ∈ Finset.range 16,
            M.padded r (bj * 16 + j) * x.getD (bj * 16 + j) 0 := by
    refine Finset.sum_congr rfl fun bj hbj => ?_
    have hbjlt : bj < blockCount M.cols := Finset.mem_range.mp hbj
    rw [getD_range_map, if_pos hbjlt, getD_range_map, if_pos hi16]
    unfold dot16 chunkOf
    refine Finset.sum_congr rfl fun j hj => ?_
    have hjlt : j < 16 := Finset.mem_range.mp hj
    rw [getD_range_map, if_pos hjlt, getD_range_map, if_pos hjlt]
    have hr16 : r / 16 * 16 + r % 16 = r := by omega
    rw [hr16]
  rw [step1, sum_range_blocks (fun c => M.padded r c * x.getD c 0) (blockCount M.cols)]
  have hsub : Finset.range M.cols ⊆ Finset.range (blockCount M.cols * 16) :=
    Finset.range_subset.mpr (cols_le_blocks M.cols)
  rw [← Finset.sum_subset hsub (fun c _ hc => ?_)]
  · refine Finset.sum_congr rfl fun c hc => ?_
    have hclt : c < M.cols := Finset.mem_range.mp hc
    unfold Matrix.padded
    rw [if_pos ⟨hrlt, hclt⟩]
  · have hcge : ¬ c < M.cols := fun h => hc (Finset.mem_range.mpr h)
    unfold Matrix.padded
    rw [if_neg (by tauto), zero_mul]

theorem computeWithPrepared_prepare (M : Matrix) (x : Buffer) (h : x.length = M.cols) :
    computeWithPrepared (prepare M) x = .ok (denseMatVec M x) := by
  unfold computeWithPrepared
  rw [if_pos (show x.length = (prepare M).cols from h), out_prepare_eq_dense]

theorem denseMatVec_length (M : Matrix) (x : Buffer) :
    (denseMatVec M x).length = M.rows := by
  simp [denseMatVec]

theorem getD_map_lt (f : ℚ → ℚ) (l : List ℚ) (i : ℕ) (h : i < l.length) :
    (l.map f).getD i 0 = f (l.getD i 0) := by
  rw [List.getD_eq_getElem _ _ (by simpa using h), List.getD_eq_getElem _ _ h, List.getElem_map]

theorem updateUnit_same (f : Int → Option Buffer) (k : Int) (b : Option Buffer) :
    updateUnit f k b k = b := by
  simp [updateUnit]

theorem trinarize_mem (x : ℚ) : trinarize x = -1 ∨ trinarize x = 0 ∨ trinarize x = 1 := by
  unfold trinarize
  split
  · exact Or.inr (Or.inl rfl)
  · split
    · exact Or.inr (Or.inr rfl)
    · exact Or.inl rfl

theorem trinarize_fix (x : ℚ) (h : x = -1 ∨ x = 0 ∨ x = 1) : trinarize x = x := by
  rcases h with rfl | rfl | rfl <;> norm_num [trinarize, trinThreshold]

theorem round_bounds (y : ℚ) : y - 1 / 2 ≤ (round y : ℚ) ∧ (round y : ℚ) ≤ y + 1 / 2 := by
  have h := abs_le.mp (abs_sub_round y)
  constructor <;> linarith [h.1, h.2]

theorem toFixed_eq_round (x : ℚ) (h1 : -1 ≤ x) (h2 : x ≤ maxFix) :
    toFixed1s31 x = round (x * 2 ^ 31) := by
  have hb := round_bounds (x * 2 ^ 31)
  have hmax : x * 2 ^ 31 ≤ 2 ^ 31 - 1 := by
    have h3 := mul_le_mul_of_nonneg_right h2 (show (0:ℚ) ≤ 2 ^ 31 by positivity)
    have h4 : maxFix * 2 ^ 31 = 2 ^ 31 - 1 := by unfold maxFix; norm_num
    linarith
  have hmin : -(2 ^ 31) ≤ x * 2 ^ 31 := by
    have h3 := mul_le_mul_of_nonneg_right h1 (show (0:ℚ) ≤ 2 ^ 31 by positivity)
    linarith
  have hlo : ((-(2 ^ 31) - 1 : ℤ) : ℚ) < (round (x * 2 ^ 31) : ℚ) := by
    norm_num
    linarith [hb.1, hmin]
  have hhi : (round (x * 2 ^ 31) : ℚ) < ((2 ^ 31 : ℤ) : ℚ) := by
    norm_num
    linarith [hb.2, hmax]
  have hlo2 : (-(2 ^ 31) - 1 : ℤ) < round (x * 2 ^ 31) := by exact_mod_cast hlo
  have hhi2 : round (x * 2 ^ 31) < (2 ^ 31 : ℤ) := by exact_mod_cast hhi
  have hlo3 : (-(2 ^ 31) : ℤ) ≤ round (x * 2 ^ 31) := by
    have := Int.add_one_le_iff.mpr hlo2
    linarith
  have hhi3 : round (x * 2 ^ 31) ≤ (2 ^ 31 - 1 : ℤ) := by
    have := Int.add_one_le_iff.mpr hhi2
    linarith
  unfold toFixed1s31 fixClamp
  rw [min_eq_right hhi3, max_eq_right hlo3]

theorem fixed_in_range (x : ℚ) (h1 : -1 ≤ x) (h2 : x ≤ maxFix) :
    |((toFixed1s31 x : ℤ) : ℚ) / 2 ^ 31 - x| ≤ 1 / 2 ^ 31 := by
  rw [toFixed_eq_round x h1 h2]
  have hb := abs_sub_round (x * 2 ^ 31)
  rw [abs_sub_comm] at hb
  have key : ((round (x * 2 ^ 31) : ℤ) : ℚ) / 2 ^ 31 - x
      = (((round (x * 2 ^ 31) : ℤ) : ℚ) - x * 2 ^ 31) / 2 ^ 31 := by
    field_simp
    ring
  rw [key, abs_div, abs_of_pos (show (0:ℚ) < 2 ^ 31 by positivity)]
  have step : |((round (x * 2 ^ 31) : ℤ) : ℚ) - x * 2 ^ 31| / 2 ^ 31 ≤ (1 / 2) / 2 ^ 31 := by
    gcongr
  have final : ((1 : ℚ) / 2) / 2 ^ 31 ≤ 1 / 2 ^ 31 := by norm_num
  linarith

theorem fixed_above (x : ℚ) (h : maxFix < x) :
    ((toFixed1s31 x : ℤ) : ℚ) / 2 ^ 31 = maxFix := by
  have hb := round_bounds (x * 2 ^ 31)
  have hy : (2:ℚ) ^ 31 - 1 ≤ x * 2 ^ 31 := by
    have h3 := mul_le_mul_of_nonneg_right (le_of_lt h) (show (0:ℚ) ≤ 2 ^ 31 by positivity)
    have h4 : maxFix * 2 ^ 31 = 2 ^ 31 - 1 := by unfold maxFix; norm_num
    linarith
  have hlo : ((2 ^ 31 - 2 : ℤ) : ℚ) < (round (x * 2 ^ 31) : ℚ) := by
    norm_num
    linarith [hb.1, hy]
  have hlo2 : (2 ^ 31 - 2 : ℤ) < round (x * 2 ^ 31) := by exact_mod_cast hlo
  have hge : (2 ^ 31 - 1 : ℤ) ≤ round (x * 2 ^ 31) := by
    have := Int.add_one_le_iff.mpr hlo2
    linarith
  have hfix : toFixed1s31 x = 2 ^ 31 - 1 := by
    unfold toFixed1s31 fixClamp
    rw [min_eq_left hge, max_eq_right (show (-(2:ℤ) ^ 31) ≤ 2 ^ 31 - 1 by norm_num)]
  rw [hfix]
  unfold maxFix
  push_cast
  norm_num

theorem fixed_below (x : ℚ) (h : x < -1) :
    ((toFixed1s31 x : ℤ) : ℚ) / 2 ^ 31 = -1 := by
  have hb := round_bounds (x * 2 ^ 31)
  have hy : x * 2 ^ 31 ≤ -(2 ^ 31) := by
    have h3 := mul_le_mul_of_nonneg_right (le_of_lt h) (show (0:ℚ) ≤ 2 ^ 31 by positivity)
    linarith
  have hhi : (round (x * 2 ^ 31) : ℚ) < ((-(2 ^ 31) + 1 : ℤ) : ℚ) := by
    norm_num
    linarith [hb.2, hy]
  have hhi2 : round (x * 2 ^ 31) < (-(2 ^ 31) + 1 : ℤ) := by exact_mod_cast hhi
  have hle : round (x * 2 ^ 31) ≤ (-(2 ^ 31) : ℤ) := Int.lt_add_one_iff.mp hhi2
  have hfix : toFixed1s31 x = -(2 ^ 31) := by
    unfold toFixed1s31 fixClamp
    rw [min_eq_right (le_trans hle (by norm_num)), max_eq_left hle]
  rw [hfix]
  push_cast
  norm_num

theorem execute_reduce (a : Accelerator) (op : UnitOp) (s t : Int) (bs bt : Buffer)
    (hrange : 0 ≤ s ∧ s < 256 ∧ 0 ≤ t ∧ t < 256)
    (hbs : a.units s = some bs) (hbt : a.units t = some bt) :
    a.execute op s t =
      match op with
      | .copy =>
        if bs.length = bt.length then
          .ok { a with units := updateUnit a.units t (some bs) }
        else
          .error .ShapeMismatch
      | .add =>
        if bs.length = bt.length then
          .ok { a with units := updateUnit a.units t (some (List.zipWith (· + ·) bt bs)) }
        else
          .error .ShapeMismatch
      | .relu =>
        .ok { a with units := updateUnit a.units t (some (bs.map fun x => max x 0)) }
      | .tanh =>
        .ok { a with units := updateUnit a.units t (some (bs.map fun x => tanhQ x)) } := by
  unfold Accelerator.execute
  rw [if_pos hrange, hbs, hbt]

/-- C1: for every matrix M — dimensions multiples of 16 or not, the latter
under the zero-pad partial-block policy — and every vector x with
x.length = M.cols, the cached block-partitioned product
computeWithPrepared (prepare M) x succeeds, produces a rows-length result
equal to the direct dense product M·x, and is therefore within relative
tolerance 1/1000 of it per element (the rational embedding is exact, so the
difference is zero). -/
theorem claim1_prepared_matvec (M : Matrix) (x : Buffer) (h : x.length = M.cols) :
    ∃ y, computeWithPrepared (prepare M) x = .ok y ∧ y.length = M.rows ∧
      y = denseMatVec M x ∧
      ∀ i, |y.getD i 0 - (denseMatVec M x).getD i 0|
        ≤ 1 / 1000 * |(denseMatVec M x).getD i 0| := by
  refine ⟨denseMatVec M x, computeWithPrepared_prepare M x h, denseMatVec_length M x, rfl, ?_⟩
  intro i
  simp only [sub_self, abs_zero]
  positivity

/-- Witness for C1 at the concrete 1×1 (non-aligned, zero-padded) matrix
[[2]] and vector [3]. -/
theorem claim1_prepared_matvec_witness :
    ([(3:ℚ)].length = (Matrix.mk 1 1 [[2]]).cols) ∧
    (∃ y, computeWithPrepared (prepare (Matrix.mk 1 1 [[2]])) [(3:ℚ)] = .ok y ∧
      y.length = (Matrix.mk 1 1 [[2]]).rows ∧
      y = denseMatVec (Matrix.mk 1 1 [[2]]) [(3:ℚ)] ∧
      ∀ i, |y.getD i 0 - (denseMatVec (Matrix.mk 1 1 [[2]]) [(3:ℚ)]).getD i 0|
        ≤ 1 / 1000 * |(denseMatVec (Matrix.mk 1 1 [[2]]) [(3:ℚ)]).getD i 0|) :=
  ⟨rfl, claim1_prepared_matvec (Matrix.mk 1 1 [[2]]) [(3:ℚ)] rfl⟩

/-- C2: for every buffer whose length is a (nonzero) multiple of 16,
computeVector needs no unit binding (it takes no unit state at all), succeeds,
returns a new buffer of the same length equal to the reference element-wise
result (v+1 for add, v·2 for mul, max(v,0) for relu, elementwise tanh), hence
within absolute tolerance 1/100000 of the reference; the input buffer is a
value and is never mutated. -/
theorem claim2_compute_vector (v : Buffer) (op : VecOp)
    (h16 : v.length % 16 = 0) (hne : v.length ≠ 0) :
    ∃ w, computeVector v op = .ok w ∧ w.length = v.length ∧ w = refCompute op v ∧
      ∀ i, |w.getD i 0 - (refCompute op v).getD i 0| ≤ 1 / 100000 := by
  have hsame : applyVecOp op v = refCompute op v := by
    cases op <;> rfl
  refine ⟨applyVecOp op v, ?_, ?_, hsame, ?_⟩
  · unfold computeVector
    rw [if_pos ⟨h16, hne⟩]
  · cases op <;> simp [applyVecOp]
  · intro i
    rw [hsame]
    simp only [sub_self, abs_zero]
    norm_num

/-- Witness for C2 at a 16-element zero buffer and the add operation. -/
theorem claim2_compute_vector_witness :
    ((List.replicate 16 (0:ℚ)).length % 16 = 0) ∧
    ((List.replicate 16 (0:ℚ)).length ≠ 0) ∧
    (∃ w, computeVector (List.replicate 16 (0:ℚ)) .add = .ok w ∧
      w.length = (List.replicate 16 (0:ℚ)).length ∧
      w = refCompute .add (List.replicate 16 (0:ℚ)) ∧
      ∀ i, |w.getD i 0 - (refCompute .add (List.replicate 16 (0:ℚ))).getD i 0| ≤ 1 / 100000) :=
  ⟨by decide, by decide,
    claim2_compute_vector (List.replicate 16 (0:ℚ)) .add (by decide) (by decide)⟩

/-- C3: for valid, populated units s and t, execute copy sets the target
unit's storage to a copy of the source unit's storage, and execute add sets it
to the element-wise sum of the target's and source's storage, when the stored
lengths agree; when the stored lengths differ, both operations fail with
ShapeMismatch. -/
theorem claim3_execute_copy_add (a : Accelerator) (s t : Int) (bs bt : Buffer)
    (hs : 0 ≤ s ∧ s < 256) (ht : 0 ≤ t ∧ t < 256)
    (hbs : a.units s = some bs) (hbt : a.units t = some bt) :
    (bs.length = bt.length →
      (∃ a1, a.execute .copy s t = .ok a1 ∧ a1.units t = some bs) ∧
      (∃ a2, a.execute .add s t = .ok a2 ∧
        a2.units t = some (List.zipWith (· + ·) bt bs))) ∧
    (bs.length ≠ bt.length →
      a.execute .copy s t = .error .ShapeMismatch ∧
      a.execute .add s t = .error .ShapeMismatch) := by
  have hrange : 0 ≤ s ∧ s < 256 ∧ 0 ≤ t ∧ t < 256 := ⟨hs.1, hs.2, ht.1, ht.2⟩
  have hcopy := execute_reduce a .copy s t bs bt hrange hbs hbt
  have hadd := execute_reduce a .add s t bs bt hrange hbs hbt
  simp only at hcopy hadd
  constructor
  · intro hlen
    constructor
    · refine ⟨{ a with units := updateUnit a.units t (some bs) }, ?_, updateUnit_same _ _ _⟩
      rw [hcopy, if_pos hlen]
    · refine ⟨{ a with units := updateUnit a.units t (some (List.zipWith (· + ·) bt bs)) },
        ?_, updateUnit_same _ _ _⟩
      rw [hadd, if_pos hlen]
  · intro hlen
    constructor
    · rw [hcopy, if_neg hlen]
    · rw [hadd, if_neg hlen]

/-- Witness for C3 on a concrete two-unit state: units 0 and 1 hold
equal-length singletons. -/
theorem claim3_execute_copy_add_witness :
    (([(1:ℚ)] : Buffer).length = ([(2:ℚ)] : Buffer).length →
      (∃ a1, (Accelerator.mk
          (fun j => if j = 0 then some [(1:ℚ)] else if j = 1 then some [(2:ℚ)] else none)
          none).execute .copy 0 1 = .ok a1 ∧ a1.units 1 = some [(1:ℚ)]) ∧
      (∃ a2, (Accelerator.mk
          (fun j => if j = 0 then some [(1:ℚ)] else if j = 1 then some [(2:ℚ)] else none)
          none).execute .add 0 1 = .ok a2 ∧
        a2.units 1 = some (List.zipWith (· + ·) [(2:ℚ)] [(1:ℚ)]))) ∧
    (([(1:ℚ)] : Buffer).length ≠ ([(2:ℚ)] : Buffer).length →
      (Accelerator.mk
          (fun j => if j = 0 then some [(1:ℚ)] else if j = 1 then some [(2:ℚ)] else none)
          none).execute .copy 0 1 = .error .ShapeMismatch ∧
      (Accelerator.mk
          (fun j => if j = 0 then some [(1:ℚ)] else if j = 1 then some [(2:ℚ)] else none)
          none).execute .add 0 1 = .error .ShapeMismatch) :=
  claim3_execute_copy_add
    (Accelerator.mk
      (fun j => if j = 0 then some [(1:ℚ)] else if j = 1 then some [(2:ℚ)] else none) none)
    0 1 [(1:ℚ)] [(2:ℚ)] (by decide) (by decide) rfl rfl

/-- C4: trinary conversion succeeds on every buffer, produces only values in
{-1, 0, 1} by the fixed symmetric threshold rule (magnitude below the
threshold maps to 0, otherwise to the sign), and is idempotent: converting an
already-trinary buffer yields that same buffer. -/
theorem claim4_trinary (v : Buffer) :
    ∃ w, convert v "trinary" = .ok w ∧
      w = v.map trinarize ∧
      (∀ x ∈ w, x = -1 ∨ x = 0 ∨ x = 1) ∧
      ((∀ x ∈ v, x = -1 ∨ x = 0 ∨ x = 1) → w = v) := by
  refine ⟨v.map trinarize, ?_, rfl, ?_, ?_⟩
  · unfold convert
    rw [if_neg (by decide), if_pos rfl]
  · intro x hx
    rcases List.mem_map.mp hx with ⟨y, _, rfl⟩
    exact trinarize_mem y
  · intro hv
    have h1 : v.map trinarize = v.map id :=
      List.map_congr_left fun x hx => trinarize_fix x (hv x hx)
    simpa using h1

/-- Witness for C4 at the already-trinary buffer [0]. -/
theorem claim4_trinary_witness :
    (∀ x ∈ [(0:ℚ)], x = -1 ∨ x = 0 ∨ x = 1) ∧
    (∃ w, convert [(0:ℚ)] "trinary" = .ok w ∧
      w = [(0:ℚ)].map trinarize ∧
      (∀ x ∈ w, x = -1 ∨ x = 0 ∨ x = 1) ∧
      ((∀ x ∈ [(0:ℚ)], x = -1 ∨ x = 0 ∨ x = 1) → w = [(0:ℚ)])) :=
  ⟨by simp, claim4_trinary [(0:ℚ)]⟩

/-- C5 (amended): 1s.31 conversion succeeds on every buffer, keeps the
length, and element-wise: values inside the representable de-scaled range
[-1, 1 - 2^-31] are reproduced after de-scaling within 2^-31; values above
the range saturate (after de-scaling) to 1 - 2^-31; values below the range
saturate to -1 — not to -(1 - 2^-31), since the clamp floor -2^31 de-scales
to exactly -1. -/
theorem claim5_fixed_point_amended (v : Buffer) :
    ∃ w, convert v "fixed_point_1s31" = .ok w ∧ w.length = v.length ∧
      ∀ i, i < v.length →
        ((-1 ≤ v.getD i 0 → v.getD i 0 ≤ maxFix →
            |(deScale w).getD i 0 - v.getD i 0| ≤ 1 / 2 ^ 31) ∧
         (maxFix < v.getD i 0 → (deScale w).getD i 0 = maxFix) ∧
         (v.getD i 0 < -1 → (deScale w).getD i 0 = -1)) := by
  refine ⟨v.map fun x => ((toFixed1s31 x : ℤ) : ℚ), ?_, by simp, ?_⟩
  · unfold convert
    rw [if_neg (by decide), if_neg (by decide), if_pos rfl]
  · intro i hi
    have hlw : i < (v.map fun x => ((toFixed1s31 x : ℤ) : ℚ)).length := by simpa using hi
    have hw1 : (deScale (v.map fun x => ((toFixed1s31 x : ℤ) : ℚ))).getD i 0
        = ((v.map fun x => ((toFixed1s31 x : ℤ) : ℚ)).getD i 0) / 2 ^ 31 := by
      unfold deScale
      exact getD_map_lt (fun x => x / 2 ^ 31) _ i hlw
    have hw2 : (v.map fun x => ((toFixed1s31 x : ℤ) : ℚ)).getD i 0
        = ((toFixed1s31 (v.getD i 0) : ℤ) : ℚ) :=
      getD_map_lt (fun x => ((toFixed1s31 x : ℤ) : ℚ)) v i hi
    rw [hw1, hw2]
    exact ⟨fun h1 h2 => fixed_in_range _ h1 h2,
      fun h => fixed_above _ h, fun h => fixed_below _ h⟩

/-- Witness for C5 (amended) at the buffer [0]. -/
theorem claim5_fixed_point_amended_witness :
    ∃ w, convert [(0:ℚ)] "fixed_point_1s31" = .ok w ∧ w.length = [(0:ℚ)].length ∧
      ∀ i, i < [(0:ℚ)].length →
        ((-1 ≤ [(0:ℚ)].getD i 0 → [(0:ℚ)].getD i 0 ≤ maxFix →
            |(deScale w).getD i 0 - [(0:ℚ)].getD i 0| ≤ 1 / 2 ^ 31) ∧
         (maxFix < [(0:ℚ)].getD i 0 → (deScale w).getD i 0 = maxFix) ∧
         ([(0:ℚ)].getD i 0 < -1 → (deScale w).getD i 0 = -1)) :=
  claim5_fixed_point_amended [(0:ℚ)]

/-- C5 counterexample: the element -2 lies below the representable range, and
its converted, de-scaled value is exactly -1, which differs from both
1 - 2^-31 and -(1 - 2^-31); so the claim's ±(1 - 2^-31) saturation value is
wrong on the negative side. -/
theorem claim5_fixed_point_counterexample :
    convert [(-2 : ℚ)] "fixed_point_1s31" = .ok [((-(2 ^ 31) : ℤ) : ℚ)] ∧
    deScale [((-(2 ^ 31) : ℤ) : ℚ)] = [(-1 : ℚ)] ∧
    (-2 : ℚ) < -1 ∧
    (-1 : ℚ) ≠ 1 - 1 / 2 ^ 31 ∧ (-1 : ℚ) ≠ -(1 - 1 / 2 ^ 31) := by
  have hfix : toFixed1s31 (-2) = -(2 ^ 31) := by
    unfold toFixed1s31
    have h1 : ((-2 : ℚ) * 2 ^ 31) = ((-(2 ^ 32) : ℤ) : ℚ) := by
      push_cast
      ring
    rw [h1, round_intCast]
    unfold fixClamp
    rw [min_eq_right (by norm_num), max_eq_left (by norm_num)]
  refine ⟨?_, ?_, by norm_num, by norm_num, by norm_num⟩
  · unfold convert
    rw [if_neg (by decide), if_neg (by decide), if_pos rfl]
    simp [hfix]
  · unfold deScale
    simp only [List.map_cons, List.map_nil, List.cons.injEq, and_true]
    push_cast
    norm_num

/-- C6: constructing a Vector from data whose length is not a multiple of 16
fails with InvalidShape; on aligned nonempty data, construction succeeds and
stores exactly the given data — never padded or truncated — with no
binding. -/
theorem claim6_construction (d : Buffer) :
    (d.length % 16 ≠ 0 → Vector.fromList d = .error .InvalidShape) ∧
    (d.length % 16 = 0 → d.length ≠ 0 → Vector.fromList d = .ok ⟨d, none⟩) := by
  constructor
  · intro h
    unfold Vector.fromList
    rw [if_neg (by tauto)]
  · intro h1 h2
    unfold Vector.fromList
    rw [if_pos ⟨h1, h2⟩]

/-- Witness for C6: a 15-element buffer is rejected with InvalidShape and a
16-element buffer is stored verbatim. -/
theorem claim6_construction_witness :
    ((List.replicate 15 (1:ℚ)).length % 16 ≠ 0 →
      Vector.fromList (List.replicate 15 (1:ℚ)) = .error .InvalidShape) ∧
    (((List.replicate 15 (1:ℚ)).length % 16 = 0 → (List.replicate 15 (1:ℚ)).length ≠ 0 →
      Vector.fromList (List.replicate 15 (1:ℚ)) = .ok ⟨List.replicate 15 (1:ℚ), none⟩)) ∧
    ((List.replicate 16 (1:ℚ)).length % 16 = 0 → (List.replicate 16 (1:ℚ)).length ≠ 0 →
      Vector.fromList (List.replicate 16 (1:ℚ)) = .ok ⟨List.replicate 16 (1:ℚ), none⟩) :=
  ⟨(claim6_construction (List.replicate 15 (1:ℚ))).1,
   (claim6_construction (List.replicate 15 (1:ℚ))).2,
   (claim6_construction (List.replicate 16 (1:ℚ))).2⟩

/-- C7: unit ids outside [0, 256) make bindToUnit and execute (in either
position) fail with InvalidUnitId; ids inside the range make bindToUnit
succeed on any vector, copying its buffer into the unit's storage and
recording the binding on the returned vector. -/
theorem claim7_unit_id (a : Accelerator) (v : Vector) (op : UnitOp) (u : Int) :
    (¬(0 ≤ u ∧ u < 256) →
      a.bindToUnit v u = .error .InvalidUnitId ∧
      (∀ t, a.execute op u t = .error .InvalidUnitId) ∧
      (∀ s, a.execute op s u = .error .InvalidUnitId)) ∧
    ((0 ≤ u ∧ u < 256) →
      ∃ a2 v2, a.bindToUnit v u = .ok (a2, v2) ∧ a2.units u = some v.buffer ∧
        v2.binding = some u ∧ v2.buffer = v.buffer) := by
  constructor
  · intro hu
    refine ⟨?_, fun t => ?_, fun s => ?_⟩
    · unfold Accelerator.bindToUnit
      rw [if_neg hu]
    · unfold Accelerator.execute
      rw [if_neg (by tauto)]
    · unfold Accelerator.execute
      rw [if_neg (by tauto)]
  · intro hu
    refine ⟨{ a with units := updateUnit a.units u (some v.buffer) },
      { v with binding := some u }, ?_, updateUnit_same _ _ _, rfl, rfl⟩
    unfold Accelerator.bindToUnit
    rw [if_pos hu]

/-- Witness for C7 at unit ids 256 (invalid) and 5 (valid) on a fresh
accelerator. -/
theorem claim7_unit_id_witness :
    (¬((0:Int) ≤ 256 ∧ (256:Int) < 256)) ∧
    (Accelerator.start.bindToUnit ⟨List.replicate 16 (0:ℚ), none⟩ 256
        = .error .InvalidUnitId ∧
      (∀ t, Accelerator.start.execute .copy 256 t = .error .InvalidUnitId) ∧
      (∀ s, Accelerator.start.execute .copy s 256 = .error .InvalidUnitId)) ∧
    ((0:Int) ≤ 5 ∧ (5:Int) < 256) ∧
    (∃ a2 v2, Accelerator.start.bindToUnit ⟨List.replicate 16 (0:ℚ), none⟩ 5 = .ok (a2, v2) ∧
      a2.units 5 = some (Vector.mk (List.replicate 16 (0:ℚ)) none).buffer ∧
      v2.binding = some 5 ∧ v2.buffer = (Vector.mk (List.replicate 16 (0:ℚ)) none).buffer) :=
  ⟨by decide,
   (claim7_unit_id Accelerator.start ⟨List.replicate 16 (0:ℚ), none⟩ .copy 256).1 (by decide),
   by decide,
   (claim7_unit_id Accelerator.start ⟨List.replicate 16 (0:ℚ), none⟩ .copy 5).2 (by decide)⟩

/-- C8: the binding-requiring vector operations (accumulate-from-unit and the
in-place activations) fail with NotBound on an unbound vector, a
runtime-state error distinct from the argument-validation errors InvalidShape
and InvalidUnitId; and execute with a never-bound (empty) source unit fails
with UnboundUnit. -/
theorem claim8_notbound_unbound (a : Accelerator) (v : Vector) (op : UnitOp)
    (src s t : Int) (hv : v.binding = none)
    (hs : 0 ≤ s ∧ s < 256 ∧ 0 ≤ t ∧ t < 256) (hempty : a.units s = none) :
    a.addFromUnit v src = .error .NotBound ∧
    a.activate v op = .error .NotBound ∧
    a.execute op s t = .error .UnboundUnit ∧
    AccelError.NotBound ≠ AccelError.InvalidShape ∧
    AccelError.NotBound ≠ AccelError.InvalidUnitId := by
  refine ⟨?_, ?_, ?_, by decide, by decide⟩
  · unfold Accelerator.addFromUnit
    rw [hv]
  · unfold Accelerator.activate
    rw [hv]
  · unfold Accelerator.execute
    rw [if_pos hs, hempty]

/-- Witness for C8: an unbound 16-element vector and the empty unit 0 of a
fresh accelerator. -/
theorem claim8_notbound_unbound_witness :
    ((Vector.mk (List.replicate 16 (0:ℚ)) none).binding = none) ∧
    ((0:Int) ≤ 0 ∧ (0:Int) < 256 ∧ (0:Int) ≤ 1 ∧ (1:Int) < 256) ∧
    (Accelerator.start.units 0 = none) ∧
    (Accelerator.start.addFromUnit (Vector.mk (List.replicate 16 (0:ℚ)) none) 0
        = .error .NotBound ∧
      Accelerator.start.activate (Vector.mk (List.replicate 16 (0:ℚ)) none) .relu
        = .error .NotBound ∧
      Accelerator.start.execute .relu 0 1 = .error .UnboundUnit ∧
      AccelError.NotBound ≠ AccelError.InvalidShape ∧
      AccelError.NotBound ≠ AccelError.InvalidUnitId) :=
  ⟨rfl, by decide, rfl,
    claim8_notbound_unbound Accelerator.start (Vector.mk (List.replicate 16 (0:ℚ)) none)
      .relu 0 0 1 rfl (by decide) rfl⟩

/-- C9: every engine call that fails returns the accelerator state it was
given — validation precedes every state write, so a failed bind, execute,
prepared-matrix compute, direct vector compute, or conversion leaves unit
storage and the matrix cache exactly as they were. -/
theorem claim9_failure_atomic (a : Accelerator) (c : Command) (e : AccelError)
    (h : (a.run c).2 = some e) : (a.run c).1 = a := by
  cases c <;> simp only [Accelerator.run] at h ⊢ <;> revert h
  all_goals
    first
      | (split <;> intro h <;> simp_all)
      | (intro h; simp_all)

/-- Witness for C9: binding to the out-of-range unit 300 fails and leaves the
fresh accelerator state unchanged. -/
theorem claim9_failure_atomic_witness :
    ((Accelerator.start.run (.bindCmd (Vector.mk (List.replicate 16 (0:ℚ)) none) 300)).2
        = some AccelError.InvalidUnitId) ∧
    (Accelerator.start.run (.bindCmd (Vector.mk (List.replicate 16 (0:ℚ)) none) 300)).1
        = Accelerator.start :=
  ⟨rfl, claim9_failure_atomic Accelerator.start
    (.bindCmd (Vector.mk (List.replicate 16 (0:ℚ)) none) 300) AccelError.InvalidUnitId rfl⟩

/-- C10: the accelerator instance retains at most one prepared matrix —
preparing A and then B leaves exactly B's preparation retained, and
compute_with_prepared_matrix, which takes only the vector, computes B·x. -/
theorem claim10_single_prepared (a : Accelerator) (A B : Matrix) (x : Buffer)
    (h : x.length = B.cols) :
    ((a.prepareMatrix A).prepareMatrix B).preparedMat = some (prepare B) ∧
    ((a.prepareMatrix A).prepareMatrix B).computeWithPreparedMatrix x
      = .ok (denseMatVec B x) := by
  refine ⟨rfl, ?_⟩
  show computeWithPrepared (prepare B) x = .ok (denseMatVec B x)
  exact computeWithPrepared_prepare B x h

/-- Witness for C10: preparing [[5]] then [[2]] on a fresh accelerator makes
the vector-only compute use [[2]]. -/
theorem claim10_single_prepared_witness :
    ([(3:ℚ)].length = (Matrix.mk 1 1 [[2]]).cols) ∧
    (((Accelerator.start.prepareMatrix (Matrix.mk 1 1 [[5]])).prepareMatrix
        (Matrix.mk 1 1 [[2]])).preparedMat = some (prepare (Matrix.mk 1 1 [[2]])) ∧
      ((Accelerator.start.prepareMatrix (Matrix.mk 1 1 [[5]])).prepareMatrix
        (Matrix.mk 1 1 [[2]])).computeWithPreparedMatrix [(3:ℚ)]
        = .ok (denseMatVec (Matrix.mk 1 1 [[2]]) [(3:ℚ)])) :=
  ⟨rfl, claim10_single_prepared Accelerator.start (Matrix.mk 1 1 [[5]])
    (Matrix.mk 1 1 [[2]]) [(3:ℚ)] rfl⟩

end NNFPGA
